import Mathlib

/-!
Shallow embedding of the recurrent layers of `python/mlx/nn/layers/recurrent.py`:
the Elman `RNN`, `GRU`, `LSTM` flat layers and the convolutional LSTM cell and
sequence wrapper.

The tensor engine's scalars are modelled by an arbitrary commutative ring `R`
(every operation these layers perform on scalars is ring arithmetic: addition,
multiplication, and `1 - z`); the engine's `mx.sigmoid`, `mx.tanh` and the
fused `nn.Conv2d` object are external collaborators and enter the model as
opaque function parameters (`sg`, `th`, `conv`).  Universal statements are
proved for every `R`; concrete evaluations instantiate `R := ℤ`, where every
definition computes by `decide`.

A vector is a list of scalars; a matrix is the list of its rows; a batched
rank-3 tensor is a list of matrices.  Negative-index slicing `v[..., : -H]` /
`v[..., -H :]` is `take (length - H)` / `drop (length - H)`, and
`mx.split(v, k, axis=-1)` yields the `k` consecutive chunks of width
`length / k`, exactly as in the source's well-formed uses.
-/

namespace Recurrent

abbrev Vec (R : Type) : Type := List R

abbrev Mat (R : Type) : Type := List (Vec R)

variable {R : Type} [CommRing R]

/-- Dot product of two vectors (standard engine semantics). -/
def dot (a b : Vec R) : R := (List.zipWith (fun x y => x * y) a b).sum

/-- Elementwise vector addition. -/
def vecAdd (a b : Vec R) : Vec R := List.zipWith (fun x y => x + y) a b

/-- Elementwise (Hadamard) vector product. -/
def vecMul (a b : Vec R) : Vec R := List.zipWith (fun x y => x * y) a b

/-- Number of columns of a matrix (length of its first row). -/
def ncols (W : Mat R) : ℕ := (W.head?.getD []).length

/-- The `j`-th column of a matrix. -/
def colv (W : Mat R) (j : ℕ) : Vec R := W.map (fun r => r.getD j 0)

/-- Row-vector times matrix, `v @ W`. -/
def vecMatMul (v : Vec R) (W : Mat R) : Vec R :=
  (List.range (ncols W)).map (fun j => dot v (colv W j))

/-- Matrix product `A @ W` (each row of `A` against `W`). -/
def matMul (A W : Mat R) : Mat R := A.map (fun r => vecMatMul r W)

/-- `mx.addmm(b, A, W) = b + A @ W`, the bias broadcast over the rows. -/
def addmm (b : Vec R) (A W : Mat R) : Mat R :=
  A.map (fun r => vecAdd b (vecMatMul r W))

/-- Elementwise `1 - v` (the `(1 - z)` term of the GRU update). -/
def oneMinus (v : Vec R) : Vec R := v.map (fun x => 1 - x)

/-! ### Elman RNN (`RNN`, recurrent.py lines 40-91) -/

/-- Parameters of the `RNN` layer: `Wxh`, `Whh`, optional `bias`, and the
stored `nonlinearity` (the default `tanh` is one instance), applied
elementwise as the default is. -/
structure RNNP (R : Type) where
  Wxh : Mat R
  Whh : Mat R
  bias : Option (Vec R)
  nl : R → R

/-- The whole-sequence input projection of `RNN.__call__` (lines 77-80):
`x = mx.addmm(self.bias, x, self.Wxh)` when a bias is present, else
`x = x @ self.Wxh`. -/
def rnnProj (p : RNNP R) (x : Mat R) : Mat R :=
  match p.bias with
  | some b => addmm b x p.Wxh
  | none => matMul x p.Wxh

/-- Body of the `RNN.__call__` loop (lines 84-88) for one time step. -/
def rnnStep (p : RNNP R) (xt : Vec R) (hidden : Option (Vec R)) : Vec R :=
  let pre :=
    match hidden with
    | some h => vecAdd xt (vecMatMul h p.Whh)
    | none => xt
  pre.map p.nl

/-- The `RNN.__call__` loop over the time axis (lines 82-89), threading the
hidden state and collecting every step's hidden state in order. -/
def rnnLoop (p : RNNP R) : List (Vec R) → Option (Vec R) → List (Vec R)
  | [], _ => []
  | xt :: rest, hidden =>
    let h := rnnStep p xt hidden
    h :: rnnLoop p rest (some h)

/-- `RNN.__call__` (lines 76-91) on an unbatched `(L, D)` input: project the
whole sequence, loop over the `L` time slices, stack the results (stacking
`L` vectors along `axis=-2` is the list of those vectors). -/
def rnnCall (p : RNNP R) (x : Mat R) (hidden : Option (Vec R)) : Mat R :=
  rnnLoop p (rnnProj p x) hidden

/-! ### GRU (`GRU`, recurrent.py lines 124-195) -/

/-- Parameters of the `GRU` layer: `hidden_size`, fused `Wx` and `Wh`,
optional fused bias `b`, optional second bias `bhn`. -/
structure GRUP (R : Type) where
  hidden_size : ℕ
  Wx : Mat R
  Wh : Mat R
  b : Option (Vec R)
  bhn : Option (Vec R)

/-- The fused input projection of `GRU.__call__` (lines 158-161). -/
def gruProj (p : GRUP R) (x : Mat R) : Mat R :=
  match p.b with
  | some bb => addmm bb x p.Wx
  | none => matMul x p.Wx

/-- Body of the `GRU.__call__` loop (lines 169-192) for one step, given the
step's reset/update slice `xrz` and candidate slice `xn`.

The final two lines transcribe the source exactly: the variable `hidden` is
rebound to `(1 - z) * n` *before* the `if hidden is not None` test, so the
test is always true and the carry term `z * hidden` multiplies the freshly
computed value, on every step, instead of `z * h_prev`. -/
def gruStep (sg th : R → R) (p : GRUP R) (xrz xn : Vec R) (hidden : Option (Vec R)) :
    Vec R :=
  let hp : Option (Vec R × Vec R) :=
    match hidden with
    | some h =>
      let hproj := vecMatMul h p.Wh
      let hprz := hproj.take (hproj.length - p.hidden_size)
      let hpn0 := hproj.drop (hproj.length - p.hidden_size)
      let hpn :=
        match p.bhn with
        | some bb => vecAdd hpn0 bb
        | none => hpn0
      some (hprz, hpn)
    | none => none
  let rz0 :=
    match hp with
    | some q => vecAdd xrz q.1
    | none => xrz
  let rz := rz0.map sg
  let r := rz.take (rz.length / 2)
  let z := rz.drop (rz.length / 2)
  let n0 :=
    match hp with
    | some q => vecAdd xn (vecMul r q.2)
    | none => xn
  let n := n0.map th
  let h1 := vecMul (oneMinus z) n
  vecAdd h1 (vecMul z h1)

/-- The `GRU.__call__` loop (lines 166-193) over the per-step pairs of
reset/update and candidate slices. -/
def gruLoop (sg th : R → R) (p : GRUP R) :
    List (Vec R × Vec R) → Option (Vec R) → List (Vec R)
  | [], _ => []
  | s :: rest, hidden =>
    let h := gruStep sg th p s.1 s.2 hidden
    h :: gruLoop sg th p rest (some h)

/-- `GRU.__call__` (lines 157-195) on an unbatched `(L, D)` input: fused
projection, slicing into `x_rz = x[..., : -H]` and `x_n = x[..., -H :]`,
then the loop and the final stack. -/
def gruCall (sg th : R → R) (p : GRUP R) (x : Mat R) (hidden : Option (Vec R)) :
    Mat R :=
  let xp := gruProj p x
  let xrz := xp.map (fun row => row.take (row.length - p.hidden_size))
  let xn := xp.map (fun row => row.drop (row.length - p.hidden_size))
  gruLoop sg th p (List.zip xrz xn) hidden

/-! ### LSTM (`LSTM`, recurrent.py lines 231-288) -/

/-- Parameters of the `LSTM` layer: fused `Wx`, `Wh`, optional fused bias. -/
structure LSTMP (R : Type) where
  Wx : Mat R
  Wh : Mat R
  bias : Option (Vec R)

/-- The fused input projection of `LSTM.__call__` (lines 260-263). -/
def lstmProj (p : LSTMP R) (x : Mat R) : Mat R :=
  match p.bias with
  | some b => addmm b x p.Wx
  | none => matMul x p.Wx

/-- The `ifgo` pre-activation of one LSTM step (lines 269-271). -/
def lstmPre (p : LSTMP R) (xt : Vec R) (hidden : Option (Vec R)) : Vec R :=
  match hidden with
  | some h => vecAdd xt (vecMatMul h p.Wh)
  | none => xt

/-- Body of the `LSTM.__call__` loop (lines 269-283) for one time step:
split `ifgo` into four equal gates, activate, update cell and hidden. -/
def lstmStep (sg th : R → R) (p : LSTMP R) (xt : Vec R) (hidden cell : Option (Vec R)) :
    Vec R × Vec R :=
  let ifgo := lstmPre p xt hidden
  let q := ifgo.length / 4
  let i := (ifgo.take q).map sg
  let f := ((ifgo.drop q).take q).map sg
  let g := ((ifgo.drop (2 * q)).take q).map th
  let o := ((ifgo.drop (3 * q)).take q).map sg
  let c :=
    match cell with
    | some cp => vecAdd (vecMul f cp) (vecMul i g)
    | none => vecMul i g
  let h := vecMul o (c.map th)
  (h, c)

/-- The `LSTM.__call__` loop (lines 265-286), threading hidden and cell and
collecting the per-step `(hidden, cell)` pairs in order. -/
def lstmLoop (sg th : R → R) (p : LSTMP R) :
    List (Vec R) → Option (Vec R) → Option (Vec R) → List (Vec R × Vec R)
  | [], _, _ => []
  | xt :: rest, hidden, cell =>
    let hc := lstmStep sg th p xt hidden cell
    hc :: lstmLoop sg th p rest (some hc.1) (some hc.2)

/-- `LSTM.__call__` (lines 259-288) on an unbatched `(L, D)` input: fused
projection, loop, and the two stacked outputs (hidden sequence, cell
sequence). -/
def lstmCall (sg th : R → R) (p : LSTMP R) (x : Mat R) (hidden cell : Option (Vec R)) :
    Mat R × Mat R :=
  let outs := lstmLoop sg th p (lstmProj p x) hidden cell
  (outs.map Prod.fst, outs.map Prod.snd)

/-! ### The flat layers on batched `(N, L, D)` input

The same source lines act on rank-3 tensors; each engine primitive then
broadcasts over the leading batch axis (matmul with a rank-2 right operand
maps over the batch, elementwise ops and last-axis slicing apply pointwise,
`x[..., idx, :]` picks row `idx` of every batch element, and
`mx.stack(-2)` of `L` matrices of shape `(N, H)` yields `(N, L, H)`). -/

abbrev Ten3 (R : Type) : Type := List (Mat R)

/-- Elementwise map over a matrix. -/
def mmap (f : R → R) (A : Mat R) : Mat R := A.map (fun r => r.map f)

/-- Elementwise matrix addition. -/
def matAdd (A B : Mat R) : Mat R := List.zipWith vecAdd A B

/-- Elementwise matrix product. -/
def matHad (A B : Mat R) : Mat R := List.zipWith vecMul A B

/-- Last-axis `take` on a matrix (per-row, the amount a function of the row
length, matching negative-index slicing). -/
def mtake (f : ℕ → ℕ) (A : Mat R) : Mat R := A.map (fun r => r.take (f r.length))

/-- Last-axis `drop` on a matrix (per-row). -/
def mdrop (f : ℕ → ℕ) (A : Mat R) : Mat R := A.map (fun r => r.drop (f r.length))

/-- `x[..., idx, :]` on a rank-3 tensor: row `idx` of every batch element. -/
def tslice (X : Ten3 R) (idx : ℕ) : Mat R := X.map (fun m => m.getD idx [])

/-- `x.shape[-2]` of a (well-formed) rank-3 tensor. -/
def tlen (X : Ten3 R) : ℕ := (X.head?.getD []).length

/-- `mx.stack(ms, axis=-2)` for `L` matrices of shape `(N, H)`: the result's
batch element `n` is the stack of the `n`-th rows. -/
def stackNeg2 (ms : List (Mat R)) : Ten3 R :=
  (List.range (ms.head?.getD []).length).map (fun n => ms.map (fun m => m.getD n []))

/-- The `RNN.__call__` input projection on `(N, L, D)` input (broadcast over
the batch axis). -/
def rnnProj3 (p : RNNP R) (x : Ten3 R) : Ten3 R := x.map (fun m => rnnProj p m)

/-- One step of the `RNN.__call__` loop on batched state `(N, H)`. -/
def rnnStep3 (p : RNNP R) (xt : Mat R) (hidden : Option (Mat R)) : Mat R :=
  let pre :=
    match hidden with
    | some h => matAdd xt (matMul h p.Whh)
    | none => xt
  mmap p.nl pre

/-- The `RNN.__call__` loop on batched input, over the list of time slices. -/
def rnnLoop3 (p : RNNP R) : List (Mat R) → Option (Mat R) → List (Mat R)
  | [], _ => []
  | xt :: rest, hidden =>
    let h := rnnStep3 p xt hidden
    h :: rnnLoop3 p rest (some h)

/-- `RNN.__call__` on a batched `(N, L, D)` input. -/
def rnnCall3 (p : RNNP R) (x : Ten3 R) (hidden : Option (Mat R)) : Ten3 R :=
  let xp := rnnProj3 p x
  stackNeg2 (rnnLoop3 p ((List.range (tlen xp)).map (fun idx => tslice xp idx)) hidden)

/-- The `GRU.__call__` input projection on `(N, L, D)` input. -/
def gruProj3 (p : GRUP R) (x : Ten3 R) : Ten3 R := x.map (fun m => gruProj p m)

/-- One step of the `GRU.__call__` loop on batched state `(N, H)`; same
lines as `gruStep`, with every op broadcast over the batch axis (the `bhn`
bias broadcasts over the rows of `h_proj_n`). -/
def gruStep3 (sg th : R → R) (p : GRUP R) (xrz xn : Mat R) (hidden : Option (Mat R)) :
    Mat R :=
  let hp : Option (Mat R × Mat R) :=
    match hidden with
    | some h =>
      let hproj := matMul h p.Wh
      let hprz := mtake (fun len => len - p.hidden_size) hproj
      let hpn0 := mdrop (fun len => len - p.hidden_size) hproj
      let hpn :=
        match p.bhn with
        | some bb => hpn0.map (fun r => vecAdd r bb)
        | none => hpn0
      some (hprz, hpn)
    | none => none
  let rz0 :=
    match hp with
    | some q => matAdd xrz q.1
    | none => xrz
  let rz := mmap sg rz0
  let r := mtake (fun len => len / 2) rz
  let z := mdrop (fun len => len / 2) rz
  let n0 :=
    match hp with
    | some q => matAdd xn (matHad r q.2)
    | none => xn
  let n := mmap th n0
  let h1 := matHad (mmap (fun v => 1 - v) z) n
  matAdd h1 (matHad z h1)

/-- The `GRU.__call__` loop on batched input. -/
def gruLoop3 (sg th : R → R) (p : GRUP R) :
    List (Mat R × Mat R) → Option (Mat R) → List (Mat R)
  | [], _ => []
  | s :: rest, hidden =>
    let h := gruStep3 sg th p s.1 s.2 hidden
    h :: gruLoop3 sg th p rest (some h)

/-- `GRU.__call__` on a batched `(N, L, D)` input. -/
def gruCall3 (sg th : R → R) (p : GRUP R) (x : Ten3 R) (hidden : Option (Mat R)) :
    Ten3 R :=
  let xp := gruProj3 p x
  let xrz := xp.map (fun m => mtake (fun len => len - p.hidden_size) m)
  let xn := xp.map (fun m => mdrop (fun len => len - p.hidden_size) m)
  let slices := (List.range (tlen xp)).map (fun idx => (tslice xrz idx, tslice xn idx))
  stackNeg2 (gruLoop3 sg th p slices hidden)

/-- The `LSTM.__call__` input projection on `(N, L, D)` input. -/
def lstmProj3 (p : LSTMP R) (x : Ten3 R) : Ten3 R := x.map (fun m => lstmProj p m)

/-- The batched `ifgo` pre-activation of one LSTM step. -/
def lstmPre3 (p : LSTMP R) (xt : Mat R) (hidden : Option (Mat R)) : Mat R :=
  match hidden with
  | some h => matAdd xt (matMul h p.Wh)
  | none => xt

/-- The `k`-th of the four equal last-axis chunks of `mx.split(A, 4, axis=-1)`,
per row (chunk width is a quarter of the original row length). -/
def msplit4 (A : Mat R) (k : ℕ) : Mat R :=
  A.map (fun r => (r.drop (k * (r.length / 4))).take (r.length / 4))

/-- One step of the `LSTM.__call__` loop on batched states `(N, H)`. -/
def lstmStep3 (sg th : R → R) (p : LSTMP R) (xt : Mat R) (hidden cell : Option (Mat R)) :
    Mat R × Mat R :=
  let ifgo := lstmPre3 p xt hidden
  let i := mmap sg (msplit4 ifgo 0)
  let f := mmap sg (msplit4 ifgo 1)
  let g := mmap th (msplit4 ifgo 2)
  let o := mmap sg (msplit4 ifgo 3)
  let c :=
    match cell with
    | some cp => matAdd (matHad f cp) (matHad i g)
    | none => matHad i g
  let h := matHad o (mmap th c)
  (h, c)

/-- The `LSTM.__call__` loop on batched input. -/
def lstmLoop3 (sg th : R → R) (p : LSTMP R) :
    List (Mat R) → Option (Mat R) → Option (Mat R) → List (Mat R × Mat R)
  | [], _, _ => []
  | xt :: rest, hidden, cell =>
    let hc := lstmStep3 sg th p xt hidden cell
    hc :: lstmLoop3 sg th p rest (some hc.1) (some hc.2)

/-- `LSTM.__call__` on a batched `(N, L, D)` input. -/
def lstmCall3 (sg th : R → R) (p : LSTMP R) (x : Ten3 R) (hidden cell : Option (Mat R)) :
    Ten3 R × Ten3 R :=
  let xp := lstmProj3 p x
  let outs := lstmLoop3 sg th p ((List.range (tlen xp)).map (fun idx => tslice xp idx))
    hidden cell
  (stackNeg2 (outs.map Prod.fst), stackNeg2 (outs.map Prod.snd))

/-! ### Convolutional LSTM (`ConvLSTMCell` and `ConvLSTM`, lines 322-444)

A spatial slice of shape `(H, W, C)` is a list of `H` rows of `W` channel
vectors; a batched slice `(N, H, W, C)` is a list of those; the sequence
input `(N, L, H, W, C)` nests once more, batch outermost.  The fused
`nn.Conv2d` object created in `ConvLSTMCell.__init__` is an external
collaborator and enters the model as a function on batched slices. -/

abbrev Sp3 (R : Type) : Type := List (List (Vec R))

abbrev Ten4 (R : Type) : Type := List (Sp3 R)

/-- Elementwise scalar map over a batched spatial tensor. -/
def t4map (f : R → R) (x : Ten4 R) : Ten4 R :=
  x.map (fun s => s.map (fun row => row.map (fun v => v.map f)))

/-- Pointwise channel-vector zip over two batched spatial tensors. -/
def t4zip (f : Vec R → Vec R → Vec R) (x y : Ten4 R) : Ten4 R :=
  List.zipWith (fun a b => List.zipWith (fun c d => List.zipWith f c d) a b) x y

/-- The `k`-th of the four equal channel chunks of `mx.split(y, 4, axis=-1)`. -/
def t4split4 (y : Ten4 R) (k : ℕ) : Ten4 R :=
  y.map (fun s => s.map (fun row => row.map
    (fun v => (v.drop (k * (v.length / 4))).take (v.length / 4))))

/-- The fused convolution: a function from the channel-concatenated batched
slice `(N, H, W, Cin + Cout)` to the gate tensor `(N, H, W, 4 * Cout)`. -/
structure ConvCell (R : Type) where
  conv : Ten4 R → Ten4 R

/-- `ConvLSTMCell.__call__` (lines 339-370): concatenate input and hidden by
channel, run the fused convolution, split into the four gates in order
`(i, f, c_candidate, o)`, and update cell and hidden exactly as the source
does (`c = c_t * f` first, then `c = c + i * c_candidate`). -/
def convCellCall (sg th : R → R) (cell : ConvCell R) (xt : Ten4 R)
    (prev : Ten4 R × Ten4 R) : Ten4 R × Ten4 R :=
  let x := t4zip (fun a b => a ++ b) xt prev.1
  let y := cell.conv x
  let f := t4map sg (t4split4 y 1)
  let c0 := t4zip vecMul prev.2 f
  let i := t4map sg (t4split4 y 0)
  let cand := t4map th (t4split4 y 2)
  let c := t4zip vecAdd c0 (t4zip vecMul i cand)
  let o := t4map sg (t4split4 y 3)
  let h := t4zip vecMul o (t4map th c)
  (h, c)

/-- Configuration of the `ConvLSTM` sequence wrapper (lines 406-422). -/
structure ConvLSTMM (R : Type) where
  in_channels : ℕ
  out_channels : ℕ
  cell : ConvCell R

/-- The `ConvLSTM.__call__` unrolling loop (lines 437-439), threading the
`(h_t, c_t)` pair through the cell and collecting each step's hidden state
in time order.  (The source writes each `h_t` into slot `i` of a
zero-initialized time-major tensor; since every slot `i in range(t)` is
written exactly once, the final tensor is this list.) -/
def convUnroll (sg th : R → R) (cell : ConvCell R) :
    List (Ten4 R) → Ten4 R → Ten4 R → List (Ten4 R)
  | [], _, _ => []
  | s :: rest, hcur, ccur =>
    let hc := convCellCall sg th cell s (hcur, ccur)
    hc.1 :: convUnroll sg th cell rest hc.1 hc.2

/-- `ConvLSTM.__call__` (lines 425-444) on input of shape `(N, L, H, W, C)`:
check the channel dimension, zero-initialize the `(N, H, W, O)` hidden and
cell states, unroll the cell over time into a time-major `(L, N, H, W, O)`
tensor, then `reshape` it to `(N, L, H, W, O)`.  Reshape is a flat-buffer
regrouping: batch element `n` of the result is the run of `L` consecutive
`(H, W, O)` blocks starting at flat position `n * L`. -/
def convLSTMCall (sg th : R → R) (m : ConvLSTMM R) (x : List (List (Sp3 R))) :
    Except String (List (List (Sp3 R))) :=
  let b := x.length
  let t := (x.head?.getD []).length
  let hh := ((x.head?.getD []).head?.getD []).length
  let ww := (((x.head?.getD []).head?.getD []).head?.getD []).length
  let c := ((((x.head?.getD []).head?.getD []).head?.getD []).head?.getD []).length
  if c ≠ m.in_channels then
    Except.error "Channel dimension mismatch"
  else
    let zst : Ten4 R :=
      List.replicate b (List.replicate hh (List.replicate ww
        (List.replicate m.out_channels (0 : R))))
    let slices := (List.range t).map (fun i => x.map (fun seq => seq.getD i []))
    let hs := convUnroll sg th m.cell slices zst zst
    let flat := hs.flatten
    Except.ok ((List.range b).map (fun n => (flat.drop (n * t)).take t))

/-- `ConvLSTMCell.__init__` (lines 323-337), modelled at the configuration
level: it records the fused convolution's hyperparameters (input channels
`in_channels + out_channels`, output channels `out_channels * 4`, kernel,
stride, padding, dilation, bias) and performs no validation of its own. -/
structure ConvCellCfg where
  conv_in : ℕ
  conv_out : ℕ
  kernel_size : ℕ
  stride : ℕ
  padding : ℕ
  dilation : ℕ
  withBias : Bool
deriving DecidableEq

/-- `ConvLSTMCell.__init__` as a fallible constructor: the source body has no
check, so every argument combination succeeds. -/
def convCellInit (inc outc k s pd dl : ℕ) (bias : Bool) : Except String ConvCellCfg :=
  Except.ok ⟨inc + outc, outc * 4, k, s, pd, dl, bias⟩

/-- Configuration produced by `ConvLSTM.__init__`. -/
structure ConvLSTMCfg where
  in_channels : ℕ
  out_channels : ℕ
  kernel_size : ℕ
  cellCfg : ConvCellCfg
deriving DecidableEq

/-- `ConvLSTM.__init__` (lines 407-422): record the channel counts and kernel
size, `assert kernel_size % 2 == 1` (failure aborts construction), set
`padding = kernel_size // 2`, and build the inner cell.  The source's cell
construction call is not a well-formed Python call (a positional argument
follows a keyword argument); following the spec's stated intent it passes
stride 1, padding `kernel_size // 2`, dilation 1, and forwards `bias`. -/
def convLSTMInit (inc outc k : ℕ) (bias : Bool) : Except String ConvLSTMCfg :=
  if k % 2 = 1 then
    match convCellInit inc outc k 1 (k / 2) 1 bias with
    | Except.ok cfg => Except.ok ⟨inc, outc, k, cfg⟩
    | Except.error e => Except.error e
  else
    Except.error "Kernel size should be odd for same-dimensional spatial padding."

/-! ### `RNN.__init__` nonlinearity handling (lines 49-53)

The constructor evaluates `self.nonlinearity = nonlinearity or tanh` and then
raises if the result is not callable.  The argument is modelled by its two
properties the code consults: whether it is callable (and if so which
function it is) and its Python truthiness (`None` is falsy, functions are
truthy, other objects carry either truth value). -/

/-- The `nonlinearity` argument of `RNN.__init__`: `None`, a callable, or a
non-callable object with the given truthiness. -/
inductive NLArg (R : Type) where
  | pyNone : NLArg R
  | fn : (Vec R → Vec R) → NLArg R
  | other : Bool → NLArg R

/-- Python truthiness of the argument. -/
def NLArg.truthy {R : Type} : NLArg R → Bool
  | NLArg.pyNone => false
  | NLArg.fn _ => true
  | NLArg.other t => t

/-- `callable(v)` on the argument. -/
def NLArg.callableB {R : Type} : NLArg R → Bool
  | NLArg.fn _ => true
  | _ => false

/-- Lines 49-53 of `RNN.__init__`, with `tanhDefault` the imported `tanh`:
`nl = nonlinearity or tanh; if not callable(nl): raise ValueError`. -/
def rnnInitNonlin {R : Type} (tanhDefault : Vec R → Vec R) (arg : NLArg R) :
    Except String (Vec R → Vec R) :=
  let nl := if arg.truthy then arg else NLArg.fn tanhDefault
  match nl with
  | NLArg.fn f => Except.ok f
  | _ => Except.error "Nonlinearity must be callable."

/-! ### Auxiliary definitions for stating the claims -/

/-- The `k`-th of the four equal chunks `mx.split(v, 4, axis=-1)` of a gate
pre-activation vector. -/
def gateSlice (v : Vec R) (k : ℕ) : Vec R :=
  (v.drop (k * (v.length / 4))).take (v.length / 4)

/-- A concrete fused convolution for evaluating the convolutional LSTM on a
`1 × 1` spatial grid with one input and one output channel: each output
position's four gate channels all equal the sum of its two input channels
(the input value and the previous hidden value). -/
def conv0 : Ten4 ℤ → Ten4 ℤ := fun y => y.map (fun s => s.map (fun row => row.map
  (fun chans => let v := chans.getD 0 0 + chans.getD 1 0; [v, v, v, v])))

/-- A concrete `(N, L, H, W, C) = (2, 2, 1, 1, 1)` input sequence. -/
def x0 : List (List (Sp3 ℤ)) := [[[[[1]]], [[[2]]]], [[[[3]]], [[[4]]]]]

/-! ### Helper lemmas -/

lemma rangeMapGetD {α : Type _} (l : List α) (d : α) :
    (List.range l.length).map (fun i => l.getD i d) = l := by
  induction l with
  | nil => rfl
  | cons a t ih =>
    rw [List.length_cons, List.range_succ_eq_map, List.map_cons, List.map_map]
    refine congrArg₂ (fun u s => u :: s) rfl ?_
    have hc : ((fun i => (a :: t).getD i d) ∘ Nat.succ) = (fun i => t.getD i d) := by
      funext i
      simp [Function.comp, List.getD_cons_succ]
    rw [hc, ih]

lemma dot_replicate_zero (k : ℕ) (v : Vec R) : dot (List.replicate k 0) v = 0 := by
  induction k generalizing v with
  | zero => simp [dot]
  | succ n ih =>
    cases v with
    | nil => simp [dot]
    | cons b t =>
      rw [List.replicate_succ]
      simp only [dot, List.zipWith_cons_cons, List.sum_cons, zero_mul, zero_add]
      simpa [dot] using ih t

lemma vecMatMul_replicate_zero (k : ℕ) (W : Mat R) :
    vecMatMul (List.replicate k 0) W = List.replicate (ncols W) 0 := by
  refine List.eq_replicate_iff.2 ⟨by simp [vecMatMul], ?_⟩
  intro b hb
  simp only [vecMatMul, List.mem_map] at hb
  obtain ⟨j, _, rfl⟩ := hb
  exact dot_replicate_zero k (colv W j)

lemma vecAdd_replicate_zero_right (v : Vec R) (k : ℕ) (h : v.length ≤ k) :
    vecAdd v (List.replicate k 0) = v := by
  induction v generalizing k with
  | nil => rfl
  | cons a t ih =>
    cases k with
    | zero => simp at h
    | succ n =>
      rw [List.replicate_succ]
      simp only [vecAdd, List.zipWith_cons_cons, add_zero]
      refine congrArg₂ (fun u s => u :: s) rfl ?_
      have ht : t.length ≤ n := by
        simpa using Nat.le_of_succ_le_succ (by simpa using h)
      simpa [vecAdd] using ih n ht

lemma vecAdd_replicate_zero_left (v : Vec R) (k : ℕ) (h : v.length ≤ k) :
    vecAdd (List.replicate k 0) v = v := by
  induction v generalizing k with
  | nil => simp [vecAdd]
  | cons a t ih =>
    cases k with
    | zero => simp at h
    | succ n =>
      rw [List.replicate_succ]
      simp only [vecAdd, List.zipWith_cons_cons, zero_add]
      refine congrArg₂ (fun u s => u :: s) rfl ?_
      have ht : t.length ≤ n := by
        simpa using Nat.le_of_succ_le_succ (by simpa using h)
      simpa [vecAdd] using ih n ht

lemma vecMul_replicate_zero_right (v : Vec R) (k : ℕ) :
    vecMul v (List.replicate k 0) = List.replicate (min v.length k) 0 := by
  induction v generalizing k with
  | nil => simp [vecMul]
  | cons a t ih =>
    cases k with
    | zero => simp [vecMul]
    | succ n =>
      rw [List.replicate_succ]
      simp only [vecMul, List.zipWith_cons_cons, mul_zero, List.length_cons]
      rw [Nat.succ_min_succ, List.replicate_succ]
      refine congrArg₂ (fun u s => u :: s) rfl ?_
      simpa [vecMul] using ih n

lemma vecMatMul_length (v : Vec R) (W : Mat R) : (vecMatMul v W).length = ncols W := by
  simp [vecMatMul]

lemma vecAdd_length (a b : Vec R) : (vecAdd a b).length = min a.length b.length := by
  simp [vecAdd, List.length_zipWith]

lemma vecMul_length (a b : Vec R) : (vecMul a b).length = min a.length b.length := by
  simp [vecMul, List.length_zipWith]

lemma rnnLoop_length (p : RNNP R) (xs : List (Vec R)) (hidden : Option (Vec R)) :
    (rnnLoop p xs hidden).length = xs.length := by
  induction xs generalizing hidden with
  | nil => rfl
  | cons a t ih => simp [rnnLoop, ih]

lemma rnnProj_length (p : RNNP R) (x : Mat R) : (rnnProj p x).length = x.length := by
  cases hb : p.bias <;> simp [rnnProj, hb, addmm, matMul]

lemma rnnLoop_getD_zero (p : RNNP R) (xs : List (Vec R)) (hidden : Option (Vec R))
    (h : xs ≠ []) :
    (rnnLoop p xs hidden).getD 0 [] = rnnStep p (xs.getD 0 []) hidden := by
  cases xs with
  | nil => exact absurd rfl h
  | cons a t => rfl

lemma rnnLoop_getD_succ (p : RNNP R) (xs : List (Vec R)) (hidden : Option (Vec R))
    (t : ℕ) (h : t + 1 < xs.length) :
    (rnnLoop p xs hidden).getD (t + 1) []
      = rnnStep p (xs.getD (t + 1) []) (some ((rnnLoop p xs hidden).getD t [])) := by
  induction xs generalizing hidden t with
  | nil => simp at h
  | cons a rest ih =>
    cases t with
    | zero =>
      have hne : rest ≠ [] := by
        intro hr
        rw [hr] at h
        simp at h
      simp only [rnnLoop, List.getD_cons_succ, List.getD_cons_zero]
      rw [rnnLoop_getD_zero p rest _ hne]
    | succ s =>
      have hs : s + 1 < rest.length := by
        have := Nat.lt_of_succ_lt_succ (by simpa using h)
        simpa using this
      simp only [rnnLoop, List.getD_cons_succ]
      rw [ih _ s hs]

lemma rnnStep_length (p : RNNP R) (xt : Vec R) (hidden : Option (Vec R)) (H : ℕ)
    (hW : ncols p.Whh = H) (hx : xt.length = H) :
    (rnnStep p xt hidden).length = H := by
  cases hidden with
  | none => simpa [rnnStep] using hx
  | some h0 =>
    simp [rnnStep, vecAdd_length, vecMatMul_length, hW, hx]

lemma rnnLoop_mem_length (p : RNNP R) (H : ℕ) (hW : ncols p.Whh = H) :
    ∀ (xs : List (Vec R)) (hidden : Option (Vec R)), (∀ r ∈ xs, r.length = H) →
      ∀ v ∈ rnnLoop p xs hidden, v.length = H := by
  intro xs
  induction xs with
  | nil => intro hidden _ v hv; simp [rnnLoop] at hv
  | cons a rest ih =>
    intro hidden hr v hv
    simp only [rnnLoop, List.mem_cons] at hv
    rcases hv with hv | hv
    · rw [hv]
      exact rnnStep_length p a hidden H hW (hr a (by simp))
    · exact ih (some (rnnStep p a hidden)) (fun r h => hr r (by simp [h])) v hv

lemma rnnStep_zero (p : RNNP R) (H : ℕ) (hW : ncols p.Whh = H) (xt : Vec R)
    (hx : xt.length ≤ H) :
    rnnStep p xt (some (List.replicate H 0)) = rnnStep p xt none := by
  simp only [rnnStep]
  rw [vecMatMul_replicate_zero, hW, vecAdd_replicate_zero_right xt H hx]

lemma rnnCall_zero_hidden (p : RNNP R) (H : ℕ) (hW : ncols p.Whh = H) (x : Mat R)
    (hx : ∀ r ∈ rnnProj p x, r.length = H) :
    rnnCall p x (some (List.replicate H 0)) = rnnCall p x none := by
  simp only [rnnCall]
  cases hxp : rnnProj p x with
  | nil => rfl
  | cons row rest =>
    have hrow : row.length ≤ H := le_of_eq (hx row (by rw [hxp]; simp))
    simp only [rnnLoop]
    rw [rnnStep_zero p H hW row hrow]

lemma gruStep_zero (sg th : R → R) (p : GRUP R) (hbhn : p.bhn = none)
    (hW : ncols p.Wh = 3 * p.hidden_size) (a b : Vec R)
    (ha : a.length = 2 * p.hidden_size) (hb : b.length = p.hidden_size) :
    gruStep sg th p a b (some (List.replicate p.hidden_size 0))
      = gruStep sg th p a b none := by
  simp only [gruStep, hbhn]
  rw [vecMatMul_replicate_zero, hW]
  simp only [List.length_replicate]
  rw [show 3 * p.hidden_size - p.hidden_size = 2 * p.hidden_size from by omega]
  rw [List.take_replicate, List.drop_replicate]
  rw [show min (2 * p.hidden_size) (3 * p.hidden_size) = 2 * p.hidden_size from by omega]
  rw [show 3 * p.hidden_size - 2 * p.hidden_size = p.hidden_size from by omega]
  rw [vecAdd_replicate_zero_right a (2 * p.hidden_size) (le_of_eq ha)]
  rw [vecMul_replicate_zero_right]
  rw [show min ((a.map sg).take ((a.map sg).length / 2)).length p.hidden_size
      = p.hidden_size from by
    simp only [List.length_take, List.length_map, ha]
    omega]
  rw [vecAdd_replicate_zero_right b p.hidden_size (le_of_eq hb)]

lemma gruCall_zero_hidden (sg th : R → R) (p : GRUP R) (hbhn : p.bhn = none)
    (hW : ncols p.Wh = 3 * p.hidden_size) (x : Mat R)
    (hx : ∀ r ∈ gruProj p x, r.length = 3 * p.hidden_size) :
    gruCall sg th p x (some (List.replicate p.hidden_size 0))
      = gruCall sg th p x none := by
  simp only [gruCall]
  cases hxp : gruProj p x with
  | nil => rfl
  | cons row rest =>
    have hrow : row.length = 3 * p.hidden_size := hx row (by rw [hxp]; simp)
    simp only [List.map_cons, List.zip_cons_cons, gruLoop]
    rw [gruStep_zero sg th p hbhn hW _ _ ?ha ?hb]
    case ha =>
      simp only [List.length_take, hrow]
      omega
    case hb =>
      simp only [List.length_drop, hrow]
      omega

lemma lstmStep_zero (sg th : R → R) (p : LSTMP R) (H : ℕ) (hW : ncols p.Wh = 4 * H)
    (xt : Vec R) (hx : xt.length = 4 * H) :
    lstmStep sg th p xt (some (List.replicate H 0)) (some (List.replicate H 0))
      = lstmStep sg th p xt none none := by
  simp only [lstmStep, lstmPre]
  rw [vecMatMul_replicate_zero, hW, vecAdd_replicate_zero_right xt (4 * H) (le_of_eq hx)]
  rw [vecMul_replicate_zero_right]
  rw [show min (((xt.drop (xt.length / 4)).take (xt.length / 4)).map sg).length H
      = H from by
    simp only [List.length_map, List.length_take, List.length_drop, hx]
    omega]
  rw [vecAdd_replicate_zero_left _ H ?hlen]
  case hlen =>
    rw [vecMul_length]
    simp only [List.length_map, List.length_take, List.length_drop, hx]
    omega

lemma lstmCall_zero_state (sg th : R → R) (p : LSTMP R) (H : ℕ)
    (hW : ncols p.Wh = 4 * H) (x : Mat R)
    (hx : ∀ r ∈ lstmProj p x, r.length = 4 * H) :
    lstmCall sg th p x (some (List.replicate H 0)) (some (List.replicate H 0))
      = lstmCall sg th p x none none := by
  simp only [lstmCall]
  cases hxp : lstmProj p x with
  | nil => rfl
  | cons row rest =>
    have hrow : row.length = 4 * H := hx row (by rw [hxp]; simp)
    simp only [lstmLoop]
    rw [lstmStep_zero sg th p H hW row hrow]

lemma gruProj_length (p : GRUP R) (x : Mat R) : (gruProj p x).length = x.length := by
  cases hb : p.b <;> simp [gruProj, hb, addmm, matMul]

lemma lstmProj_length (p : LSTMP R) (x : Mat R) : (lstmProj p x).length = x.length := by
  cases hb : p.bias <;> simp [lstmProj, hb, addmm, matMul]

lemma gruLoop_length (sg th : R → R) (p : GRUP R) (pairs : List (Vec R × Vec R))
    (hidden : Option (Vec R)) : (gruLoop sg th p pairs hidden).length = pairs.length := by
  induction pairs generalizing hidden with
  | nil => rfl
  | cons s rest ih => simp [gruLoop, ih]

lemma lstmLoop_length (sg th : R → R) (p : LSTMP R) (xs : List (Vec R))
    (hidden cell : Option (Vec R)) :
    (lstmLoop sg th p xs hidden cell).length = xs.length := by
  induction xs generalizing hidden cell with
  | nil => rfl
  | cons a rest ih => simp [lstmLoop, ih]

lemma tslices_single (m : Mat R) :
    (List.range (tlen ([m] : Ten3 R))).map (fun idx => tslice ([m] : Ten3 R) idx)
      = m.map (fun v => [v]) := by
  have h1 : tlen ([m] : Ten3 R) = m.length := rfl
  have h2 : (fun idx => tslice ([m] : Ten3 R) idx)
      = (fun v => ([v] : Mat R)) ∘ (fun idx => m.getD idx []) := by
    funext idx
    rfl
  rw [h1, h2, ← List.map_map, rangeMapGetD]

lemma stackNeg2_single (ms : List (Vec R)) (hne : ms ≠ []) :
    stackNeg2 (ms.map (fun v => ([v] : Mat R))) = [ms] := by
  cases ms with
  | nil => exact absurd rfl hne
  | cons v rest =>
    simp only [stackNeg2, show List.range 1 = [0] from rfl, List.map_map,
      List.head?_cons, Option.getD_some, List.length_cons, List.length_nil,
      List.map_cons, List.map_nil]
    rw [show ((fun m => List.getD (m : Mat R) 0 []) ∘ fun v2 : Vec R => [v2])
        = (fun v2 : Vec R => v2) from funext (fun u => rfl)]
    simp

lemma rangeZipGetD {α β : Type _} (l1 : List α) (l2 : List β) (d1 : α) (d2 : β)
    (h : l1.length = l2.length) :
    (List.range l1.length).map (fun i => (l1.getD i d1, l2.getD i d2))
      = List.zip l1 l2 := by
  induction l1 generalizing l2 with
  | nil => simp
  | cons a t ih =>
    cases l2 with
    | nil => simp at h
    | cons b t2 =>
      rw [List.length_cons, List.range_succ_eq_map, List.map_cons, List.map_map]
      have hc : ((fun i => ((a :: t).getD i d1, (b :: t2).getD i d2)) ∘ Nat.succ)
          = (fun i => (t.getD i d1, t2.getD i d2)) := by
        funext i
        simp [Function.comp, List.getD_cons_succ]
      rw [hc]
      have ht : t.length = t2.length := by simpa using h
      rw [ih t2 ht]
      simp only [List.getD_cons_zero, List.zip_cons_cons]

lemma rnnStep3_single (p : RNNP R) (v : Vec R) (h : Option (Vec R)) :
    rnnStep3 p [v] (h.map (fun a => ([a] : Mat R))) = [rnnStep p v h] := by
  cases h <;> rfl

lemma rnnLoop3_single (p : RNNP R) :
    ∀ (rows : List (Vec R)) (h : Option (Vec R)),
      rnnLoop3 p (rows.map (fun v => ([v] : Mat R))) (h.map (fun a => ([a] : Mat R)))
        = (rnnLoop p rows h).map (fun v => [v]) := by
  intro rows
  induction rows with
  | nil => intro h; rfl
  | cons v rest ih =>
    intro h
    simp only [List.map_cons, rnnLoop3, rnnLoop]
    rw [rnnStep3_single]
    rw [show (some [rnnStep p v h] : Option (Mat R))
        = (some (rnnStep p v h)).map (fun a => ([a] : Mat R)) from rfl]
    rw [ih (some (rnnStep p v h))]

lemma rnnCall3_single (p : RNNP R) (x : Mat R) (h : Option (Vec R)) (hx : x ≠ []) :
    rnnCall3 p [x] (h.map (fun a => ([a] : Mat R))) = [rnnCall p x h] := by
  simp only [rnnCall3, rnnCall]
  have hp3 : rnnProj3 p [x] = [rnnProj p x] := rfl
  rw [hp3, tslices_single, rnnLoop3_single]
  apply stackNeg2_single
  intro hnil
  have hlen := rnnLoop_length p (rnnProj p x) h
  rw [hnil] at hlen
  have h0 : (rnnProj p x).length = 0 := hlen.symm.trans rfl
  rw [rnnProj_length] at h0
  exact hx (List.eq_nil_of_length_eq_zero h0)

lemma gruStep3_single (sg th : R → R) (p : GRUP R) (a b : Vec R) (h : Option (Vec R)) :
    gruStep3 sg th p [a] [b] (h.map (fun u => ([u] : Mat R)))
      = [gruStep sg th p a b h] := by
  cases h with
  | none => rfl
  | some u =>
    cases hb : p.bhn with
    | none =>
      simp only [gruStep3, gruStep, hb]
      rfl
    | some bb =>
      simp only [gruStep3, gruStep, hb]
      rfl

lemma gruLoop3_single (sg th : R → R) (p : GRUP R) :
    ∀ (pairs : List (Vec R × Vec R)) (h : Option (Vec R)),
      gruLoop3 sg th p (pairs.map (fun s => (([s.1] : Mat R), ([s.2] : Mat R))))
          (h.map (fun u => ([u] : Mat R)))
        = (gruLoop sg th p pairs h).map (fun v => [v]) := by
  intro pairs
  induction pairs with
  | nil => intro h; rfl
  | cons s rest ih =>
    intro h
    simp only [List.map_cons, gruLoop3, gruLoop]
    rw [gruStep3_single]
    rw [show (some [gruStep sg th p s.1 s.2 h] : Option (Mat R))
        = (some (gruStep sg th p s.1 s.2 h)).map (fun u => ([u] : Mat R)) from rfl]
    rw [ih (some (gruStep sg th p s.1 s.2 h))]

lemma gruCall3_single (sg th : R → R) (p : GRUP R) (x : Mat R) (h : Option (Vec R))
    (hx : x ≠ []) :
    gruCall3 sg th p [x] (h.map (fun u => ([u] : Mat R))) = [gruCall sg th p x h] := by
  simp only [gruCall3, gruCall]
  have hp3 : gruProj3 p [x] = [gruProj p x] := rfl
  rw [hp3]
  have hxrz : ([gruProj p x].map (fun m => mtake (fun len => len - p.hidden_size) m))
      = [mtake (fun len => len - p.hidden_size) (gruProj p x)] := rfl
  have hxn : ([gruProj p x].map (fun m => mdrop (fun len => len - p.hidden_size) m))
      = [mdrop (fun len => len - p.hidden_size) (gruProj p x)] := rfl
  rw [hxrz, hxn]
  have hlen1 : (mtake (fun len => len - p.hidden_size) (gruProj p x)).length
      = (gruProj p x).length := by simp [mtake]
  have hlen2 : (mdrop (fun len => len - p.hidden_size) (gruProj p x)).length
      = (gruProj p x).length := by simp [mdrop]
  have htl : tlen ([gruProj p x] : Ten3 R) = (gruProj p x).length := rfl
  have hslice : (fun idx =>
        (tslice ([mtake (fun len => len - p.hidden_size) (gruProj p x)] : Ten3 R) idx,
         tslice ([mdrop (fun len => len - p.hidden_size) (gruProj p x)] : Ten3 R) idx))
      = (fun s => (([s.1] : Mat R), ([s.2] : Mat R)))
        ∘ (fun idx => ((mtake (fun len => len - p.hidden_size) (gruProj p x)).getD idx [],
            (mdrop (fun len => len - p.hidden_size) (gruProj p x)).getD idx [])) := by
    funext idx
    rfl
  rw [htl, hslice, ← List.map_map]
  rw [show (gruProj p x).length
      = (mtake (fun len => len - p.hidden_size) (gruProj p x)).length from hlen1.symm]
  rw [rangeZipGetD _ _ _ _ (hlen1.trans hlen2.symm)]
  rw [gruLoop3_single]
  apply stackNeg2_single
  intro hnil
  have hlen := gruLoop_length sg th p
    (List.zip (mtake (fun len => len - p.hidden_size) (gruProj p x))
      (mdrop (fun len => len - p.hidden_size) (gruProj p x))) h
  rw [hnil] at hlen
  have h0 : (List.zip (mtake (fun len => len - p.hidden_size) (gruProj p x))
      (mdrop (fun len => len - p.hidden_size) (gruProj p x))).length = 0 := hlen.symm.trans rfl
  rw [List.length_zip, hlen1, hlen2, Nat.min_self, gruProj_length] at h0
  exact hx (List.eq_nil_of_length_eq_zero h0)

lemma lstmStep3_single (sg th : R → R) (p : LSTMP R) (v : Vec R)
    (h c : Option (Vec R)) :
    lstmStep3 sg th p [v] (h.map (fun u => ([u] : Mat R)))
        (c.map (fun u => ([u] : Mat R)))
      = ([(lstmStep sg th p v h c).1], [(lstmStep sg th p v h c).2]) := by
  cases h <;> cases c <;>
    · simp only [lstmStep3, lstmStep, lstmPre3, lstmPre, msplit4, Option.map_some,
        Option.map_none, Nat.zero_mul, Nat.one_mul, List.drop_zero]
      rfl

lemma lstmLoop3_single (sg th : R → R) (p : LSTMP R) :
    ∀ (rows : List (Vec R)) (h c : Option (Vec R)),
      lstmLoop3 sg th p (rows.map (fun v => ([v] : Mat R)))
          (h.map (fun u => ([u] : Mat R))) (c.map (fun u => ([u] : Mat R)))
        = (lstmLoop sg th p rows h c).map (fun hc => (([hc.1] : Mat R), ([hc.2] : Mat R))) := by
  intro rows
  induction rows with
  | nil => intro h c; rfl
  | cons v rest ih =>
    intro h c
    simp only [List.map_cons, lstmLoop3, lstmLoop]
    rw [lstmStep3_single]
    rw [show (some [(lstmStep sg th p v h c).1] : Option (Mat R))
        = (some ((lstmStep sg th p v h c).1)).map (fun u => ([u] : Mat R)) from rfl]
    rw [show (some [(lstmStep sg th p v h c).2] : Option (Mat R))
        = (some ((lstmStep sg th p v h c).2)).map (fun u => ([u] : Mat R)) from rfl]
    rw [ih (some ((lstmStep sg th p v h c).1)) (some ((lstmStep sg th p v h c).2))]

lemma lstmCall3_single (sg th : R → R) (p : LSTMP R) (x : Mat R)
    (h c : Option (Vec R)) (hx : x ≠ []) :
    lstmCall3 sg th p [x] (h.map (fun u => ([u] : Mat R)))
        (c.map (fun u => ([u] : Mat R)))
      = ([(lstmCall sg th p x h c).1], [(lstmCall sg th p x h c).2]) := by
  simp only [lstmCall3, lstmCall]
  have hp3 : lstmProj3 p [x] = [lstmProj p x] := rfl
  rw [hp3, tslices_single, lstmLoop3_single]
  have hne : lstmLoop sg th p (lstmProj p x) h c ≠ [] := by
    intro hnil
    have hlen := lstmLoop_length sg th p (lstmProj p x) h c
    rw [hnil] at hlen
    have h0 : (lstmProj p x).length = 0 := hlen.symm.trans rfl
    rw [lstmProj_length] at h0
    exact hx (List.eq_nil_of_length_eq_zero h0)
  have hfst : ((lstmLoop sg th p (lstmProj p x) h c).map
        (fun hc => (([hc.1] : Mat R), ([hc.2] : Mat R)))).map Prod.fst
      = ((lstmLoop sg th p (lstmProj p x) h c).map Prod.fst).map (fun v => ([v] : Mat R)) := by
    rw [List.map_map, List.map_map]
    rfl
  have hsnd : ((lstmLoop sg th p (lstmProj p x) h c).map
        (fun hc => (([hc.1] : Mat R), ([hc.2] : Mat R)))).map Prod.snd
      = ((lstmLoop sg th p (lstmProj p x) h c).map Prod.snd).map (fun v => ([v] : Mat R)) := by
    rw [List.map_map, List.map_map]
    rfl
  rw [hfst, hsnd, stackNeg2_single _ ?h1, stackNeg2_single _ ?h2]
  case h1 =>
    intro hnil
    exact hne (by simpa using congrArg List.length hnil)
  case h2 =>
    intro hnil
    exact hne (by simpa using congrArg List.length hnil)

/-! ### The claims -/

/-- Claim C7: with `x' = rnnProj p x` the whole-sequence input projection
(`x · Wxh`, plus bias when enabled), the RNN output has one entry per time
step (`shape (..., L, H)`: length `L`, every row of width `H`), its first
entry is `nonlinearity(x'_0 + h_prev · Whh)` when an initial hidden state is
given and `nonlinearity(x'_0)` otherwise, and every later entry `t + 1` is
`nonlinearity(x'_{t+1} + out_t · Whh)` where `out_t` is the previous output
entry. -/
theorem C7_rnn_call_characterization (p : RNNP R) (x : Mat R) (hidden : Option (Vec R))
    (H : ℕ) (hW : ncols p.Whh = H) (hx : ∀ r ∈ rnnProj p x, r.length = H) :
    (rnnCall p x hidden).length = x.length
  ∧ (hidden = none → 0 < x.length →
      (rnnCall p x hidden).getD 0 [] = ((rnnProj p x).getD 0 []).map p.nl)
  ∧ (∀ h0, hidden = some h0 → 0 < x.length →
      (rnnCall p x hidden).getD 0 []
        = (vecAdd ((rnnProj p x).getD 0 []) (vecMatMul h0 p.Whh)).map p.nl)
  ∧ (∀ t, t + 1 < x.length →
      (rnnCall p x hidden).getD (t + 1) []
        = (vecAdd ((rnnProj p x).getD (t + 1) [])
            (vecMatMul ((rnnCall p x hidden).getD t []) p.Whh)).map p.nl)
  ∧ (∀ v ∈ rnnCall p x hidden, v.length = H) := by
  have hplen : (rnnProj p x).length = x.length := rnnProj_length p x
  refine ⟨?_, ?_, ?_, ?_, ?_⟩
  · rw [rnnCall, rnnLoop_length, hplen]
  · intro hn hpos
    have hne : rnnProj p x ≠ [] :=
      List.ne_nil_of_length_pos (by rw [hplen]; exact hpos)
    simp only [rnnCall]
    rw [rnnLoop_getD_zero p _ _ hne, hn]
    rfl
  · intro h0 hs hpos
    have hne : rnnProj p x ≠ [] :=
      List.ne_nil_of_length_pos (by rw [hplen]; exact hpos)
    simp only [rnnCall]
    rw [rnnLoop_getD_zero p _ _ hne, hs]
    rfl
  · intro t ht
    have ht2 : t + 1 < (rnnProj p x).length := by rw [hplen]; exact ht
    simp only [rnnCall]
    rw [rnnLoop_getD_succ p _ _ t ht2]
    rfl
  · exact rnnLoop_mem_length p H hW (rnnProj p x) hidden hx

/-- Witness for C7 at a concrete instance (`D = H = 1`, `L = 2`, identity
nonlinearity, no bias, no initial hidden state). -/
theorem C7_rnn_call_characterization_witness :
    (ncols (([[1]] : Mat ℤ)) = 1
      ∧ ∀ r ∈ rnnProj (⟨[[1]], [[1]], none, fun a => a⟩ : RNNP ℤ) [[1], [2]],
          r.length = 1)
  ∧ ((rnnCall (⟨[[1]], [[1]], none, fun a => a⟩ : RNNP ℤ) [[1], [2]] none).length
        = ([[1], [2]] : Mat ℤ).length
    ∧ (none = (none : Option (Vec ℤ)) → 0 < ([[1], [2]] : Mat ℤ).length →
        (rnnCall (⟨[[1]], [[1]], none, fun a => a⟩ : RNNP ℤ) [[1], [2]] none).getD 0 []
          = ((rnnProj (⟨[[1]], [[1]], none, fun a => a⟩ : RNNP ℤ) [[1], [2]]).getD 0
              []).map (fun a => a))
    ∧ (∀ h0, (none : Option (Vec ℤ)) = some h0 → 0 < ([[1], [2]] : Mat ℤ).length →
        (rnnCall (⟨[[1]], [[1]], none, fun a => a⟩ : RNNP ℤ) [[1], [2]] none).getD 0 []
          = (vecAdd ((rnnProj (⟨[[1]], [[1]], none, fun a => a⟩ : RNNP ℤ)
              [[1], [2]]).getD 0 []) (vecMatMul h0 [[1]])).map (fun a => a))
    ∧ (∀ t, t + 1 < ([[1], [2]] : Mat ℤ).length →
        (rnnCall (⟨[[1]], [[1]], none, fun a => a⟩ : RNNP ℤ) [[1], [2]] none).getD
            (t + 1) []
          = (vecAdd ((rnnProj (⟨[[1]], [[1]], none, fun a => a⟩ : RNNP ℤ)
                [[1], [2]]).getD (t + 1) [])
              (vecMatMul ((rnnCall (⟨[[1]], [[1]], none, fun a => a⟩ : RNNP ℤ)
                [[1], [2]] none).getD t []) [[1]])).map (fun a => a))
    ∧ (∀ v ∈ rnnCall (⟨[[1]], [[1]], none, fun a => a⟩ : RNNP ℤ) [[1], [2]] none,
        v.length = 1)) :=
  ⟨⟨by decide, by decide⟩,
    C7_rnn_call_characterization (⟨[[1]], [[1]], none, fun a => a⟩ : RNNP ℤ)
      [[1], [2]] none 1 (by decide) (by decide)⟩

/-- Claim C10: for a GRU with `bias=True` called on a length-1 sequence with
the initial hidden state omitted, the output does not depend on the second
bias `bhn`: two instances identical except for `bhn` give identical outputs,
because `bhn` is only read when a previous hidden state exists. -/
theorem C10_gru_bhn_inert_first_step (sg th : R → R) (H : ℕ) (Wx Wh : Mat R)
    (bv w w2 : Vec R) (xrow : Vec R) :
    gruCall sg th ⟨H, Wx, Wh, some bv, some w⟩ [xrow] none
      = gruCall sg th ⟨H, Wx, Wh, some bv, some w2⟩ [xrow] none := rfl

/-- Claim C5: in the LSTM step, when no previous cell state exists the new
cell state is exactly `i ⊙ g` (sigmoid of the first gate slice times tanh of
the third), and is unchanged by any modification of the pre-activation that
keeps the `i` and `g` slices fixed (in particular changing the forget slice
`f`); when a previous cell state exists the new cell state is
`f ⊙ c_prev + i ⊙ g`. -/
theorem C5_lstm_cell_update (sg th : R → R) (p p2 : LSTMP R) (xt xt2 : Vec R)
    (hidden hidden2 : Option (Vec R)) (cp : Vec R) :
    (lstmStep sg th p xt hidden none).2
      = vecMul ((gateSlice (lstmPre p xt hidden) 0).map sg)
          ((gateSlice (lstmPre p xt hidden) 2).map th)
  ∧ (lstmStep sg th p xt hidden (some cp)).2
      = vecAdd (vecMul ((gateSlice (lstmPre p xt hidden) 1).map sg) cp)
          (vecMul ((gateSlice (lstmPre p xt hidden) 0).map sg)
            ((gateSlice (lstmPre p xt hidden) 2).map th))
  ∧ (gateSlice (lstmPre p2 xt2 hidden2) 0 = gateSlice (lstmPre p xt hidden) 0 →
     gateSlice (lstmPre p2 xt2 hidden2) 2 = gateSlice (lstmPre p xt hidden) 2 →
     (lstmStep sg th p2 xt2 hidden2 none).2 = (lstmStep sg th p xt hidden none).2) := by
  have e : ∀ (p3 : LSTMP R) (x3 : Vec R) (h3 : Option (Vec R)),
      (lstmStep sg th p3 x3 h3 none).2
        = vecMul ((gateSlice (lstmPre p3 x3 h3) 0).map sg)
            ((gateSlice (lstmPre p3 x3 h3) 2).map th) := by
    intro p3 x3 h3
    simp [lstmStep, gateSlice]
  refine ⟨e p xt hidden, ?_, ?_⟩
  · simp [lstmStep, gateSlice]
  · intro h0 h2
    rw [e, e, h0, h2]

/-- Witness for C5 at a concrete input: two pre-activations that differ only
in the forget slice produce the same first-step cell state. -/
theorem C5_lstm_cell_update_witness :
    gateSlice (lstmPre (⟨[], [], none⟩ : LSTMP ℤ) [1, 99, 3, 4] none) 0
      = gateSlice (lstmPre (⟨[], [], none⟩ : LSTMP ℤ) [1, 2, 3, 4] none) 0
  ∧ gateSlice (lstmPre (⟨[], [], none⟩ : LSTMP ℤ) [1, 99, 3, 4] none) 2
      = gateSlice (lstmPre (⟨[], [], none⟩ : LSTMP ℤ) [1, 2, 3, 4] none) 2
  ∧ (lstmStep id id (⟨[], [], none⟩ : LSTMP ℤ) [1, 99, 3, 4] none none).2
      = (lstmStep id id (⟨[], [], none⟩ : LSTMP ℤ) [1, 2, 3, 4] none none).2 :=
  ⟨by decide, by decide,
    (C5_lstm_cell_update id id (⟨[], [], none⟩ : LSTMP ℤ) ⟨[], [], none⟩
      [1, 2, 3, 4] [1, 99, 3, 4] none none []).2.2 (by decide) (by decide)⟩

/-- Counterexample to claim C2 as stated: for a GRU with `bias=True` (so
`bhn` is present, here `[2]`), the explicit all-zero initial hidden state and
the omitted initial state give different first-step outputs: the explicit
path adds `r ⊙ bhn` to the candidate pre-activation (lines 175-176 run
because `hidden is not None`), the omitted path does not. -/
theorem C2_gru_bias_zero_vs_omitted :
    gruCall id id (⟨1, [[0, 0, 0]], [[0, 0, 0]], some [1, 0, 0], some [2]⟩ : GRUP ℤ)
      [[1]] (some [0]) = [[2]]
  ∧ gruCall id id (⟨1, [[0, 0, 0]], [[0, 0, 0]], some [1, 0, 0], some [2]⟩ : GRUP ℤ)
      [[1]] none = [[0]]
  ∧ ([[2]] : Mat ℤ) ≠ [[0]] := ⟨by decide, by decide, by decide⟩

/-- Claim C2 (corrected): for well-formed weights, supplying an explicit
all-zero initial state gives the same output as omitting the initial-state
argument for the RNN and the LSTM unconditionally, and for the GRU whenever
`bhn` is absent (in particular whenever `bias=False`); with `bias=True` the
GRU's explicit-zero path additionally feeds `r ⊙ bhn` into the candidate, so
its output can differ from the omitted path. -/
theorem C2_explicit_zero_equals_omitted (sg th : R → R) (pr : RNNP R) (pg : GRUP R)
    (pl : LSTMP R) (Hr Hl : ℕ) (xr xg xl : Mat R)
    (hWr : ncols pr.Whh = Hr) (hxr : ∀ r2 ∈ rnnProj pr xr, r2.length = Hr)
    (hbhn : pg.bhn = none) (hWg : ncols pg.Wh = 3 * pg.hidden_size)
    (hxg : ∀ r2 ∈ gruProj pg xg, r2.length = 3 * pg.hidden_size)
    (hWl : ncols pl.Wh = 4 * Hl) (hxl : ∀ r2 ∈ lstmProj pl xl, r2.length = 4 * Hl) :
    rnnCall pr xr (some (List.replicate Hr 0)) = rnnCall pr xr none
  ∧ gruCall sg th pg xg (some (List.replicate pg.hidden_size 0))
      = gruCall sg th pg xg none
  ∧ lstmCall sg th pl xl (some (List.replicate Hl 0)) (some (List.replicate Hl 0))
      = lstmCall sg th pl xl none none :=
  ⟨rnnCall_zero_hidden pr Hr hWr xr hxr,
   gruCall_zero_hidden sg th pg hbhn hWg xg hxg,
   lstmCall_zero_state sg th pl Hl hWl xl hxl⟩

/-- Witness for (corrected) C2 at concrete instances of all three layers. -/
theorem C2_explicit_zero_equals_omitted_witness :
    (ncols (([[1]] : Mat ℤ)) = 1
      ∧ (∀ r2 ∈ rnnProj (⟨[[1]], [[1]], none, fun a => a⟩ : RNNP ℤ) [[1]],
          r2.length = 1)
      ∧ (⟨1, [[0, 0, 0]], [[5, 6, 7]], none, none⟩ : GRUP ℤ).bhn = none
      ∧ ncols (([[5, 6, 7]] : Mat ℤ)) = 3 * 1
      ∧ (∀ r2 ∈ gruProj (⟨1, [[0, 0, 0]], [[5, 6, 7]], none, none⟩ : GRUP ℤ) [[1]],
          r2.length = 3 * 1)
      ∧ ncols (([[1, 1, 1, 1]] : Mat ℤ)) = 4 * 1
      ∧ (∀ r2 ∈ lstmProj (⟨[[1, 2, 3, 4]], [[1, 1, 1, 1]], none⟩ : LSTMP ℤ) [[1]],
          r2.length = 4 * 1))
  ∧ (rnnCall (⟨[[1]], [[1]], none, fun a => a⟩ : RNNP ℤ) [[1]]
        (some (List.replicate 1 0))
      = rnnCall (⟨[[1]], [[1]], none, fun a => a⟩ : RNNP ℤ) [[1]] none
    ∧ gruCall id id (⟨1, [[0, 0, 0]], [[5, 6, 7]], none, none⟩ : GRUP ℤ) [[1]]
        (some (List.replicate 1 0))
      = gruCall id id (⟨1, [[0, 0, 0]], [[5, 6, 7]], none, none⟩ : GRUP ℤ) [[1]] none
    ∧ lstmCall id id (⟨[[1, 2, 3, 4]], [[1, 1, 1, 1]], none⟩ : LSTMP ℤ) [[1]]
        (some (List.replicate 1 0)) (some (List.replicate 1 0))
      = lstmCall id id (⟨[[1, 2, 3, 4]], [[1, 1, 1, 1]], none⟩ : LSTMP ℤ) [[1]]
        none none) :=
  ⟨⟨by decide, by decide, by decide, by decide, by decide, by decide, by decide⟩,
    C2_explicit_zero_equals_omitted id id (⟨[[1]], [[1]], none, fun a => a⟩ : RNNP ℤ)
      (⟨1, [[0, 0, 0]], [[5, 6, 7]], none, none⟩ : GRUP ℤ)
      (⟨[[1, 2, 3, 4]], [[1, 1, 1, 1]], none⟩ : LSTMP ℤ) 1 1 [[1]] [[1]] [[1]]
      (by decide) (by decide) (by decide) (by decide) (by decide) (by decide)
      (by decide)⟩

/-- Claim C1 (code bug): the GRU step (recurrent.py lines 190-192) rebinds
`hidden` to `(1 - z) * n` before testing `if hidden is not None`, so the new
hidden state is `(1 - z) ⊙ n + z ⊙ ((1 - z) ⊙ n)` instead of the documented
`(1 - z) ⊙ n + z ⊙ h_prev`.  At a concrete input with gate values `z = [2]`,
`n = [1]` and `h_prev = [1]`, the step yields `[-3]` while the documented
formula yields `[1]`. -/
theorem C1_gru_update_divergence :
    gruStep id id (⟨1, [], [[0, 0, 0]], none, none⟩ : GRUP ℤ) [0, 2] [1] (some [1])
      = [-3]
  ∧ vecAdd (vecMul (oneMinus [(2 : ℤ)]) [1]) (vecMul [(2 : ℤ)] [1]) = [1]
  ∧ ([-3] : Vec ℤ) ≠ [1] := ⟨by decide, by decide, by decide⟩

/-- Claim C6 (code bug): for a GRU on a length-1 sequence with no initial
hidden state, the same rebinding bug makes the returned hidden state
`(1 - z) ⊙ tanh(x_n) + z ⊙ ((1 - z) ⊙ tanh(x_n))` instead of the claimed
`(1 - z) ⊙ tanh(x_n)`.  At a concrete input with `z = [2]` and
`tanh(x_n) = [1]`, the layer returns `[[-3]]` while the claimed value is
`[[-1]]`. -/
theorem C6_gru_len1_divergence :
    gruCall id id (⟨1, [[0, 2, 1]], [[0, 0, 0]], none, none⟩ : GRUP ℤ) [[1]] none
      = [[-3]]
  ∧ vecMul (oneMinus [(2 : ℤ)]) ([(1 : ℤ)].map id) = [-1]
  ∧ ([[-3]] : Mat ℤ) ≠ [[-1]] := ⟨by decide, by decide, by decide⟩

/-- Claim C3 (code bug): on a `(2, 2, 1, 1, 1)` input, the convolutional LSTM
wrapper returns, at batch 0 and time 1, the value `27` (the step-1 hidden
state of batch *1*'s stream at step 0 position in the time-major buffer),
while the cell threaded over time computes `36` as the step-1 hidden state of
batch 0: line 442 `reshape`s the time-major `(L, N, H, W, O)` buffer to
`(N, L, H, W, O)` instead of transposing it, so for `N > 1` the output mixes
batch and time. -/
theorem C3_convlstm_reshape_divergence :
    convLSTMCall id id (⟨1, 1, ⟨conv0⟩⟩ : ConvLSTMM ℤ) x0
      = Except.ok [[[[[1]]], [[[27]]]], [[[[36]]], [[[38440]]]]]
  ∧ (convUnroll id id (⟨conv0⟩ : ConvCell ℤ) [[[[[1]]], [[[3]]]], [[[[2]]], [[[4]]]]]
      [[[[0]]], [[[0]]]] [[[[0]]], [[[0]]]]).getD 1 []
      = [[[[36]]], [[[38440]]]]
  ∧ ([[[27]]] : Sp3 ℤ) ≠ [[[36]]] := ⟨by rfl, by decide, by decide⟩

/-- Claim C8: for each flat layer, a nonempty unbatched `(L, D)` input
produces the same result as the same data presented as a batched `(1, L, D)`
input, up to the added leading batch axis (the initial states wrapped in the
same axis, and for the LSTM both returned sequences). -/
theorem C8_unbatched_vs_batched (sg th : R → R) (pr : RNNP R) (pg : GRUP R)
    (pl : LSTMP R) (xr xg xl : Mat R) (hr hg hl cl : Option (Vec R))
    (hxr : xr ≠ []) (hxg : xg ≠ []) (hxl : xl ≠ []) :
    rnnCall3 pr [xr] (hr.map (fun u => ([u] : Mat R))) = [rnnCall pr xr hr]
  ∧ gruCall3 sg th pg [xg] (hg.map (fun u => ([u] : Mat R)))
      = [gruCall sg th pg xg hg]
  ∧ lstmCall3 sg th pl [xl] (hl.map (fun u => ([u] : Mat R)))
      (cl.map (fun u => ([u] : Mat R)))
      = ([(lstmCall sg th pl xl hl cl).1], [(lstmCall sg th pl xl hl cl).2]) :=
  ⟨rnnCall3_single pr xr hr hxr,
   gruCall3_single sg th pg xg hg hxg,
   lstmCall3_single sg th pl xl hl cl hxl⟩

/-- Witness for C8 at concrete instances of all three layers (with nonzero
weights, biases, and initial states, over a length-2 sequence). -/
theorem C8_unbatched_vs_batched_witness :
    (([[1], [2]] : Mat ℤ) ≠ [] ∧ ([[1], [2]] : Mat ℤ) ≠ [] ∧ ([[1], [2]] : Mat ℤ) ≠ [])
  ∧ (rnnCall3 (⟨[[2]], [[3]], some [1], fun a => a * a⟩ : RNNP ℤ) [[[1], [2]]]
        ((some [4]).map (fun u => ([u] : Mat ℤ)))
      = [rnnCall (⟨[[2]], [[3]], some [1], fun a => a * a⟩ : RNNP ℤ) [[1], [2]]
          (some [4])]
    ∧ gruCall3 id id (⟨1, [[1, 2, 3]], [[4, 5, 6]], some [1, 1, 1], some [7]⟩ : GRUP ℤ)
        [[[1], [2]]] ((some [4]).map (fun u => ([u] : Mat ℤ)))
      = [gruCall id id (⟨1, [[1, 2, 3]], [[4, 5, 6]], some [1, 1, 1], some [7]⟩ : GRUP ℤ)
          [[1], [2]] (some [4])]
    ∧ lstmCall3 id id
        (⟨[[1, 2, 3, 4]], [[5, 6, 7, 8]], some [1, 1, 1, 1]⟩ : LSTMP ℤ) [[[1], [2]]]
        ((some [4]).map (fun u => ([u] : Mat ℤ)))
        ((some [9]).map (fun u => ([u] : Mat ℤ)))
      = ([(lstmCall id id (⟨[[1, 2, 3, 4]], [[5, 6, 7, 8]], some [1, 1, 1, 1]⟩ : LSTMP ℤ)
            [[1], [2]] (some [4]) (some [9])).1],
         [(lstmCall id id (⟨[[1, 2, 3, 4]], [[5, 6, 7, 8]], some [1, 1, 1, 1]⟩ : LSTMP ℤ)
            [[1], [2]] (some [4]) (some [9])).2])) :=
  ⟨⟨by decide, by decide, by decide⟩,
    C8_unbatched_vs_batched id id (⟨[[2]], [[3]], some [1], fun a => a * a⟩ : RNNP ℤ)
      (⟨1, [[1, 2, 3]], [[4, 5, 6]], some [1, 1, 1], some [7]⟩ : GRUP ℤ)
      (⟨[[1, 2, 3, 4]], [[5, 6, 7, 8]], some [1, 1, 1, 1]⟩ : LSTMP ℤ)
      [[1], [2]] [[1], [2]] [[1], [2]] (some [4]) (some [4]) (some [4]) (some [9])
      (by decide) (by decide) (by decide)⟩

/-- Counterexample to claim C4 as stated: constructing the convolutional LSTM
*cell* with the even kernel size 4 succeeds, because `ConvLSTMCell.__init__`
performs no validation. -/
theorem C4_cell_even_kernel_succeeds :
    convCellInit 1 1 4 1 2 1 true = Except.ok ⟨2, 4, 4, 1, 2, 1, true⟩ := rfl

/-- Claim C4 (corrected): the even-kernel check lives in the sequence wrapper
`ConvLSTM.__init__`, not in the cell: the cell constructor succeeds for every
argument combination, while the wrapper constructor succeeds exactly when
`kernel_size` is odd. -/
theorem C4_kernel_check_in_wrapper (inc outc k s pd dl : ℕ) (bias : Bool) :
    (convCellInit inc outc k s pd dl bias).isOk = true
  ∧ ((convLSTMInit inc outc k bias).isOk = true ↔ k % 2 = 1) := by
  constructor
  · rfl
  · constructor
    · intro h
      by_contra hk
      rw [convLSTMInit, if_neg hk] at h
      exact Bool.noConfusion h
    · intro hk
      rw [convLSTMInit, if_pos hk]
      rfl

/-- Counterexample to claim C9 as stated: passing a falsy non-callable value
(Python `0`) as the nonlinearity does *not* fail: `nonlinearity or tanh`
replaces every falsy argument by the default `tanh` before the callability
check, so construction succeeds. -/
theorem C9_falsy_noncallable_succeeds :
    (rnnInitNonlin (R := ℤ) id (NLArg.other false)).isOk = true := rfl

/-- Claim C9 (corrected): `RNN.__init__` fails on the nonlinearity argument
exactly when that argument is truthy and not callable; every callable and
every falsy value (including the omitted/`None` default, which falls back to
the imported `tanh`) succeeds. -/
theorem C9_nonlin_validation {S : Type} (d : Vec S → Vec S) (arg : NLArg S) :
    ((rnnInitNonlin d arg).isOk = true ↔ (arg.callableB = true ∨ arg.truthy = false))
  ∧ rnnInitNonlin d NLArg.pyNone = Except.ok d := by
  refine ⟨?_, rfl⟩
  cases arg with
  | pyNone => exact ⟨fun _ => Or.inr rfl, fun _ => rfl⟩
  | fn f => exact ⟨fun _ => Or.inl rfl, fun _ => rfl⟩
  | other t =>
    cases t with
    | false => exact ⟨fun _ => Or.inr rfl, fun _ => rfl⟩
    | true =>
      exact ⟨fun h => Bool.noConfusion h,
        fun h => h.elim (fun h1 => Bool.noConfusion h1) (fun h1 => Bool.noConfusion h1)⟩

end Recurrent
